import Mathlib

/-!
Verification of the fog experimentation engine: deterministic hash-based
bucketing, the Bayesian Beta-Binomial probability estimator, and the
auto-stop / auto-ramp evaluators.

Shallow embedding conventions:
* JavaScript strings are modelled as their sequences of UTF-16 code units,
  i.e. as `List ℕ` (each element the value returned by charCodeAt).
* JavaScript numbers are modelled as `ℚ`; 32-bit integer operations
  (xor, Math.imul, the unsigned shift) are modelled on `ℕ` with explicit
  reduction modulo 2^32.
* Math.random draws and the transcendental part of the Box-Muller
  transform are environment-supplied: the estimator is parametrised by the
  stream of standard-normal draws and by the square-root function, since
  both are external sources of values that the surrounding arithmetic
  (clamping, counting, division by the sample count) never inspects.
* The key-value store interactions of the evaluators are modelled by
  explicit state passing: each evaluator takes the relevant store slots as
  arguments and returns the slots' contents after the call together with
  the record it wrote, if any.
-/

namespace Fog

/-- One step of the FNV-1a loop from the source: xor the character code into
the accumulator (JavaScript coerces both sides to 32 bits), then multiply by
the FNV prime with Math.imul, i.e. with wraparound modulo 2^32. -/
def fnv1aStep (h c : ℕ) : ℕ :=
  ((h ^^^ c % 2 ^ 32) * 0x01000193) % 2 ^ 32

/-- The 32-bit accumulator of fnv1a after consuming the whole string:
the loop body of the source function, starting from the FNV offset basis.
The final unsigned shift (hash >>> 0) is the identity on this unsigned
representation. -/
def fnv1aHash (s : List ℕ) : ℕ :=
  s.foldl fnv1aStep 0x811c9dc5

/-- fnv1a from the source: the 32-bit FNV-1a hash reduced modulo 10000 and
divided by 10000, giving a number in [0, 1) with resolution 1/10000. -/
def fnv1a (s : List ℕ) : ℚ :=
  ((fnv1aHash s % 10000 : ℕ) : ℚ) / 10000

/-- Spec-side restatement of the hash loop, written from the spec's words:
an accumulator initialised to the offset basis 0x811c9dc5 and, for each
character in order, xor the character code into the accumulator then
multiply by the prime 0x01000193 with wraparound modulo 2^32. -/
def fnv1aSpecHash (acc : ℕ) : List ℕ → ℕ
  | [] => acc
  | c :: rest => fnv1aSpecHash (((acc ^^^ c % 2 ^ 32) * 0x01000193) % 2 ^ 32) rest

/-- bucket from the source. Mode "flag": 1 when the hash value is below
trafficPercent/100, else 0. Any other mode string takes the experiment
branch (the source compares only against "flag"): hash values at or above
trafficPercent/100 are excluded (-1); otherwise the hash value is rescaled
into the traffic window, multiplied by the variant count, floored, and
clamped to at most variantCount - 1. -/
def bucket (visitorId experimentId : List ℕ) (variantCount : ℕ)
    (trafficPercent : ℚ) (type : String) : ℤ :=
  let n := fnv1a (visitorId ++ experimentId)
  if type = "flag" then
    if n < trafficPercent / 100 then 1 else 0
  else
    if n ≥ trafficPercent / 100 then -1
    else
      let scaled := n / (trafficPercent / 100)
      min ⌊scaled * (variantCount : ℚ)⌋ ((variantCount : ℤ) - 1)

lemma fnv1a_nonneg (s : List ℕ) : 0 ≤ fnv1a s := by
  unfold fnv1a
  positivity

lemma fnv1a_lt_one (s : List ℕ) : fnv1a s < 1 := by
  unfold fnv1a
  rw [div_lt_one (by norm_num)]
  exact_mod_cast Nat.mod_lt _ (by norm_num)

/-- C1: ramp-stability of flag-mode bucketing. For a fixed visitor and
experiment the hash value is fixed; if the visitor is on at traffic
percentage p1, it stays on at any higher percentage p2. -/
theorem bucket_flag_ramp_stable (v e : List ℕ) (c : ℕ) (p1 p2 : ℚ)
    (hp : p1 < p2) (h1 : bucket v e c p1 "flag" = 1) :
    bucket v e c p2 "flag" = 1 := by
  unfold bucket at h1 ⊢
  simp only [if_pos rfl] at h1 ⊢
  by_cases hlt : fnv1a (v ++ e) < p1 / 100
  · have hlt2 : fnv1a (v ++ e) < p2 / 100 := by linarith
    simp [hlt2]
  · simp [hlt] at h1

lemma fnv1a_ab : fnv1a ([97] ++ [98]) = 1946 / 10000 := by
  have h : fnv1aHash ([97] ++ [98]) % 10000 = 1946 := by
    simp [fnv1aHash, fnv1aStep]
  rw [fnv1a, h]
  norm_num

lemma bucket_ab_20 : bucket [97] [98] 1 20 "flag" = 1 := by
  unfold bucket
  rw [fnv1a_ab]
  norm_num

/-- Witness for C1 at a concrete visitor, experiment and percentage pair. -/
theorem bucket_flag_ramp_stable_witness :
    (20 : ℚ) < 50 ∧ bucket [97] [98] 1 20 "flag" = 1 ∧ bucket [97] [98] 1 50 "flag" = 1 :=
  ⟨by norm_num, bucket_ab_20,
    bucket_flag_ramp_stable [97] [98] 1 20 50 (by norm_num) bucket_ab_20⟩

/-- C9: experiment-mode exclusion boundaries. At 0% traffic every visitor is
excluded (-1); at 100% traffic no visitor is excluded and the assignment lies
in [0, variantCount - 1]. -/
theorem bucket_experiment_boundaries (v e : List ℕ) (c : ℕ) (hc : 2 ≤ c) :
    bucket v e c 0 "experiment" = -1 ∧
    bucket v e c 100 "experiment" ≠ -1 ∧
    0 ≤ bucket v e c 100 "experiment" ∧
    bucket v e c 100 "experiment" ≤ (c : ℤ) - 1 := by
  have hne : ¬ (("experiment" : String) = "flag") := by decide
  have hn0 : 0 ≤ fnv1a (v ++ e) := fnv1a_nonneg _
  have hn1 : fnv1a (v ++ e) < 1 := fnv1a_lt_one _
  have hzero : bucket v e c 0 "experiment" = -1 := by
    unfold bucket
    rw [if_neg hne, if_pos (by rw [ge_iff_le, zero_div]; exact hn0)]
  have hnotex : ¬ (fnv1a (v ++ e) ≥ (100 : ℚ) / 100) := by
    rw [ge_iff_le, not_le]
    calc fnv1a (v ++ e) < 1 := hn1
      _ = 100 / 100 := by norm_num
  have hfull : bucket v e c 100 "experiment" =
      min ⌊fnv1a (v ++ e) / ((100 : ℚ) / 100) * (c : ℚ)⌋ ((c : ℤ) - 1) := by
    unfold bucket
    rw [if_neg hne, if_neg hnotex]
  have hcpos : (0 : ℚ) < (c : ℚ) := by
    have : (0 : ℕ) < c := by omega
    exact_mod_cast this
  have hscaled : fnv1a (v ++ e) / ((100 : ℚ) / 100) * (c : ℚ) = fnv1a (v ++ e) * (c : ℚ) := by
    norm_num
  have hfloor0 : 0 ≤ ⌊fnv1a (v ++ e) / ((100 : ℚ) / 100) * (c : ℚ)⌋ := by
    rw [hscaled]
    exact Int.floor_nonneg.mpr (mul_nonneg hn0 (le_of_lt hcpos))
  have hfloorlt : ⌊fnv1a (v ++ e) / ((100 : ℚ) / 100) * (c : ℚ)⌋ < (c : ℤ) := by
    rw [hscaled]
    apply Int.floor_lt.mpr
    push_cast
    exact mul_lt_of_lt_one_left hcpos hn1
  have hc2 : (2 : ℤ) ≤ (c : ℤ) := by exact_mod_cast hc
  have hge : 0 ≤ bucket v e c 100 "experiment" := by
    rw [hfull]
    exact le_min hfloor0 (by omega)
  exact ⟨hzero, by intro hcontra; rw [hcontra] at hge; omega, hge, by rw [hfull]; exact min_le_right _ _⟩

/-- Witness for C9 at a concrete visitor, experiment and variant count. -/
theorem bucket_experiment_boundaries_witness :
    2 ≤ 3 ∧
    (bucket [97] [98] 3 0 "experiment" = -1 ∧
     bucket [97] [98] 3 100 "experiment" ≠ -1 ∧
     0 ≤ bucket [97] [98] 3 100 "experiment" ∧
     bucket [97] [98] 3 100 "experiment" ≤ (3 : ℤ) - 1) :=
  ⟨by norm_num, bucket_experiment_boundaries [97] [98] 3 (by norm_num)⟩

lemma foldl_eq_fnv1aSpecHash (s : List ℕ) :
    ∀ acc : ℕ, s.foldl fnv1aStep acc = fnv1aSpecHash acc s := by
  induction s with
  | nil => intro acc; rfl
  | cons c rest ih =>
    intro acc
    rw [List.foldl_cons]
    exact ih (fnv1aStep acc c)

/-- C8: hash correctness and quantization. The accumulator computed by the
source's fold agrees with the spec's description of FNV-1a (xor the character
code, multiply by the prime, wrap modulo 2^32, starting from the offset
basis); the returned value is always a multiple of 1/10000 in [0, 1); and
bucket depends on the visitor and experiment keys only through the hash of
their concatenation. -/
theorem fnv1a_hash_quantization (s v e v2 e2 : List ℕ) (c : ℕ) (t : ℚ)
    (ty : String) (h : fnv1a (v ++ e) = fnv1a (v2 ++ e2)) :
    fnv1aHash s = fnv1aSpecHash 0x811c9dc5 s ∧
    (∃ k : ℕ, k < 10000 ∧ fnv1a s = (k : ℚ) / 10000) ∧
    0 ≤ fnv1a s ∧ fnv1a s < 1 ∧
    bucket v e c t ty = bucket v2 e2 c t ty := by
  refine ⟨foldl_eq_fnv1aSpecHash s 0x811c9dc5,
    ⟨fnv1aHash s % 10000, Nat.mod_lt _ (by norm_num), rfl⟩,
    fnv1a_nonneg s, fnv1a_lt_one s, ?_⟩
  unfold bucket
  rw [h]

/-- Witness for C8 at a concrete string and key pair. -/
theorem fnv1a_hash_quantization_witness :
    fnv1aHash [97, 98] = fnv1aSpecHash 0x811c9dc5 [97, 98] ∧
    (∃ k : ℕ, k < 10000 ∧ fnv1a [97, 98] = (k : ℚ) / 10000) ∧
    0 ≤ fnv1a [97, 98] ∧ fnv1a [97, 98] < 1 ∧
    bucket [97] [98] 3 50 "experiment" = bucket [97] [98] 3 50 "experiment" :=
  fnv1a_hash_quantization [97, 98] [97] [98] [97] [98] 3 50 "experiment" rfl

/-- Per-variant aggregated counts handed to the probability estimator. -/
structure VariantData where
  conversions : ℚ
  total : ℚ
deriving DecidableEq

/-- Clamp of a conversions count from the source: at least 0, at most the
corresponding total. -/
def clampConversions (conversions total : ℚ) : ℚ :=
  max 0 (min conversions total)

/-- Clamp of a total count from the source: at least 0. -/
def clampTotal (total : ℚ) : ℚ :=
  max 0 total

/-- sampleBeta from the source: the normal approximation to a Beta draw via
Box-Muller. The standard-normal draw z (computed in the source from two
Math.random uniforms through log and cos) and the square-root function are
supplied by the environment; the mean, variance and final clamp to [0, 1]
are the source's arithmetic. -/
def sampleBeta (msqrt : ℚ → ℚ) (alpha beta z : ℚ) : ℚ :=
  let mu := alpha / (alpha + beta)
  let variance := alpha * beta / ((alpha + beta) ^ 2 * (alpha + beta + 1))
  max 0 (min 1 (mu + msqrt variance * z))

/-- bayesianProbability from the source: clamp the four counts, then count
over 10000 iterations how often the treatment draw exceeds the control draw
and divide by 10000. Iteration i consumes the standard-normal draws
z (2 i) for the control sample and z (2 i + 1) for the treatment sample, in
the order the source calls Math.random. -/
def bayesianProbability (msqrt : ℚ → ℚ) (z : ℕ → ℚ)
    (controlConversions controlTotal treatmentConversions treatmentTotal : ℚ) : ℚ :=
  let cc := clampConversions controlConversions controlTotal
  let ct := clampTotal controlTotal
  let tc := clampConversions treatmentConversions treatmentTotal
  let tt := clampTotal treatmentTotal
  let wins := (List.range 10000).countP fun i =>
    decide (sampleBeta msqrt (cc + 1) (ct - cc + 1) (z (2 * i)) <
            sampleBeta msqrt (tc + 1) (tt - tc + 1) (z (2 * i + 1)))
  (wins : ℚ) / 10000

/-- multiVariantProbabilities from the source: empty input yields empty
output; otherwise index 0 (control) maps to none and every other index i
maps to bayesianProbability of control against variant i. Each call to the
estimator consumes 20000 fresh standard-normal draws from the global
stream, so the call for index i reads the stream at offset 20000 (i - 1). -/
def multiVariantProbabilities (msqrt : ℚ → ℚ) (z : ℕ → ℚ)
    (variants : List VariantData) : List (Option ℚ) :=
  match variants with
  | [] => []
  | control :: rest =>
    (control :: rest).mapIdx fun i v =>
      if i = 0 then none
      else some (bayesianProbability msqrt (fun n => z (20000 * (i - 1) + n))
        control.conversions control.total v.conversions v.total)

lemma clampConversions_nonneg (c t : ℚ) : 0 ≤ clampConversions c t :=
  le_max_left 0 _

lemma clampTotal_nonneg (t : ℚ) : 0 ≤ clampTotal t :=
  le_max_left 0 t

lemma clampConversions_le_clampTotal (c t : ℚ) :
    clampConversions c t ≤ clampTotal t :=
  max_le_max (le_refl 0) (min_le_right c t)

/-- C6: bayesianProbability clamps every conversions count into the valid
range [0, clamped total] with nonnegative totals, and its value is the
fraction of winning draws out of 10000, hence always in [0, 1] — for every
four rational inputs, including negative counts and conversions exceeding
totals, and for every environment-supplied square root and draw stream. -/
theorem bayesianProbability_clamped_bounded (msqrt : ℚ → ℚ) (z : ℕ → ℚ)
    (controlConversions controlTotal treatmentConversions treatmentTotal : ℚ) :
    (0 ≤ clampConversions controlConversions controlTotal ∧
     clampConversions controlConversions controlTotal ≤ clampTotal controlTotal ∧
     0 ≤ clampTotal controlTotal) ∧
    (0 ≤ clampConversions treatmentConversions treatmentTotal ∧
     clampConversions treatmentConversions treatmentTotal ≤ clampTotal treatmentTotal ∧
     0 ≤ clampTotal treatmentTotal) ∧
    (∃ wins : ℕ, wins ≤ 10000 ∧
      bayesianProbability msqrt z controlConversions controlTotal
        treatmentConversions treatmentTotal = (wins : ℚ) / 10000) ∧
    0 ≤ bayesianProbability msqrt z controlConversions controlTotal
        treatmentConversions treatmentTotal ∧
    bayesianProbability msqrt z controlConversions controlTotal
        treatmentConversions treatmentTotal ≤ 1 := by
  have hwins : ∀ w : ℕ, w ≤ 10000 → 0 ≤ ((w : ℚ) / 10000) ∧ ((w : ℚ) / 10000) ≤ 1 := by
    intro w hw
    constructor
    · positivity
    · rw [div_le_one (by norm_num)]
      exact_mod_cast hw
  set W := (List.range 10000).countP fun i =>
    decide (sampleBeta msqrt
        (clampConversions controlConversions controlTotal + 1)
        (clampTotal controlTotal - clampConversions controlConversions controlTotal + 1)
        (z (2 * i)) <
      sampleBeta msqrt
        (clampConversions treatmentConversions treatmentTotal + 1)
        (clampTotal treatmentTotal - clampConversions treatmentConversions treatmentTotal + 1)
        (z (2 * i + 1))) with hW
  have hble : W ≤ 10000 := by
    calc W ≤ (List.range 10000).length := List.countP_le_length _
      _ = 10000 := List.length_range 10000
  have heq : bayesianProbability msqrt z controlConversions controlTotal
      treatmentConversions treatmentTotal = (W : ℚ) / 10000 := rfl
  refine ⟨⟨clampConversions_nonneg _ _, clampConversions_le_clampTotal _ _,
      clampTotal_nonneg _⟩,
    ⟨clampConversions_nonneg _ _, clampConversions_le_clampTotal _ _,
      clampTotal_nonneg _⟩,
    ⟨W, hble, heq⟩, ?_, ?_⟩
  · rw [heq]; exact (hwins W hble).1
  · rw [heq]; exact (hwins W hble).2

/-- C7: shape of multiVariantProbabilities. The output is aligned
index-for-index with the input; the empty input yields the empty list; a
single-element input yields a single null; index 0 always receives null;
and every index i at least 1 receives exactly the pairwise probability of
variant i against the control at index 0, never against another variant. -/
theorem multiVariantProbabilities_shape (msqrt : ℚ → ℚ) (z : ℕ → ℚ)
    (vs : List VariantData) :
    (multiVariantProbabilities msqrt z vs).length = vs.length ∧
    multiVariantProbabilities msqrt z ([] : List VariantData) = [] ∧
    (∀ v0 : VariantData, multiVariantProbabilities msqrt z [v0] = [none]) ∧
    (vs ≠ [] → (multiVariantProbabilities msqrt z vs).get? 0 = some none) ∧
    (∀ i, 1 ≤ i → i < vs.length →
      ∃ c v, vs.get? 0 = some c ∧ vs.get? i = some v ∧
        (multiVariantProbabilities msqrt z vs).get? i =
          some (some (bayesianProbability msqrt (fun n => z (20000 * (i - 1) + n))
            c.conversions c.total v.conversions v.total))) := by
  have hsingle : ∀ v0 : VariantData, multiVariantProbabilities msqrt z [v0] = [none] := by
    intro v0
    simp [multiVariantProbabilities]
  cases vs with
  | nil =>
    refine ⟨rfl, rfl, hsingle, by simp, ?_⟩
    intro i h1 h2
    simp at h2
  | cons control rest =>
    refine ⟨?_, rfl, hsingle, ?_, ?_⟩
    · simp [multiVariantProbabilities]
    · intro _
      simp [multiVariantProbabilities]
    · intro i h1 h2
      have hi0 : i ≠ 0 := by omega
      have hlen : i < (control :: rest).length := h2
      obtain ⟨v, hv⟩ : ∃ v, (control :: rest)[i]? = some v :=
        ⟨(control :: rest)[i], List.getElem?_eq_getElem hlen⟩
      refine ⟨control, v, rfl, ?_, ?_⟩
      · rw [List.get?_eq_getElem?, hv]
      · rw [List.get?_eq_getElem?]
        show ((control :: rest).mapIdx _)[i]? = _
        rw [List.getElem?_mapIdx, hv]
        simp [hi0]

/-- Witness for C7 on a concrete two-variant input. -/
theorem multiVariantProbabilities_shape_witness :
    (multiVariantProbabilities (fun q => q) (fun _ => 0)
        [⟨1, 10⟩, ⟨2, 10⟩]).length = ([⟨1, 10⟩, ⟨2, 10⟩] : List VariantData).length ∧
    multiVariantProbabilities (fun q => q) (fun _ => 0) ([] : List VariantData) = [] ∧
    (∀ v0 : VariantData, multiVariantProbabilities (fun q => q) (fun _ => 0) [v0] = [none]) ∧
    (([⟨1, 10⟩, ⟨2, 10⟩] : List VariantData) ≠ [] →
      (multiVariantProbabilities (fun q => q) (fun _ => 0)
        [⟨1, 10⟩, ⟨2, 10⟩]).get? 0 = some none) ∧
    (∀ i, 1 ≤ i → i < ([⟨1, 10⟩, ⟨2, 10⟩] : List VariantData).length →
      ∃ c v, ([⟨1, 10⟩, ⟨2, 10⟩] : List VariantData).get? 0 = some c ∧
        ([⟨1, 10⟩, ⟨2, 10⟩] : List VariantData).get? i = some v ∧
        (multiVariantProbabilities (fun q => q) (fun _ => 0)
            [⟨1, 10⟩, ⟨2, 10⟩]).get? i =
          some (some (bayesianProbability (fun q => q)
            (fun n => (fun _ => (0 : ℚ)) (20000 * (i - 1) + n))
            c.conversions c.total v.conversions v.total))) :=
  multiVariantProbabilities_shape (fun q => q) (fun _ => 0) [⟨1, 10⟩, ⟨2, 10⟩]

/-- Experiment record as stored under the experiment's KV key. Optional
fields are absent (undefined) when the stored JSON omits them; timestamps
are the ISO strings the source writes. -/
structure Experiment where
  id : String
  variants : List String
  trafficPercent : ℚ
  status : String
  type : Option String
  autoStop : Option Bool
  minSamplesPerVariant : Option ℚ
  winner : Option String
  completedAt : Option String
  updatedAt : Option String
deriving DecidableEq

/-- Per-variant aggregated counts as assembled by handleResults from the
aggregation rows. -/
structure VariantStats where
  impressions : ℚ
  conversions : ℚ
  totalRevenue : ℚ
deriving DecidableEq

/-- Numeric value of a digit character, none for any other character. -/
def digitVal (ch : Char) : Option ℕ :=
  if ch.isDigit then some (ch.toNat - 48) else none

/-- Number() as applied to the variant keys: the aggregation layer emits
keys as decimal integer strings, which parse to their value; any other key
parses to NaN in the source and here to none, taking the same fallback
path below. -/
def parseIndex (key : String) : Option ℕ :=
  key.data.foldl
    (fun acc ch =>
      match acc, digitVal ch with
      | some n, some d => some (n * 10 + d)
      | _, _ => none)
    (if key.data.isEmpty then none else some 0)

/-- Variant display name from the source: the variant-names array indexed
by Number(key), falling back to "variant " followed by the key when the
index is missing or the key does not parse. -/
def variantName (expVariantNames : List String) (key : String) : String :=
  match parseIndex key with
  | some n => (expVariantNames.get? n).getD ("variant " ++ key)
  | none => "variant " ++ key

/-- Decision at one index of the auto-stop loop body: the winning variant's
name when the probability at that index is a number crossing a stopping
threshold (the treatment's name above 0.99, the control's name below 0.01),
and none when the probability is null, missing, or between the
thresholds. -/
def decideWinner (variantKeys : List String) (probabilities : List (Option ℚ))
    (expVariantNames : List String) (i : ℕ) : Option String :=
  match probabilities.get? i with
  | some (some p) =>
    if p > 0.99 then
      some (variantName expVariantNames ((variantKeys.get? i).getD ""))
    else if p < 0.01 then
      some (variantName expVariantNames ((variantKeys.get? 0).getD ""))
    else none
  | _ => none

/-- Record update persisted by the auto-stop evaluator on a win. -/
def completeWith (now : String) (e : Experiment) (w : String) : Experiment :=
  { e with status := "completed", winner := some w,
           completedAt := some now, updatedAt := some now }

/-- Loop of evaluateExperimentStop over the treatment indices, in order:
the first index that yields a winner stops the scan and produces the
completed record. -/
def stopScan (now : String) (e : Experiment) (variantKeys : List String)
    (probabilities : List (Option ℚ)) (expVariantNames : List String) :
    List ℕ → Option Experiment
  | [] => none
  | i :: rest =>
    match decideWinner variantKeys probabilities expVariantNames i with
    | some w => some (completeWith now e w)
    | none => stopScan now e variantKeys probabilities expVariantNames rest

/-- evaluateExperimentStop from the source. The returned record is exactly
the payload written to the experiment's KV key; none means nothing was
written. The treatment indices 1 .. variantKeys.length - 1 are scanned in
ascending order after the sample-size gate. -/
def evaluateExperimentStop (now : String) (e : Experiment)
    (variantKeys : List String) (stats : String → VariantStats)
    (probabilities : List (Option ℚ)) (expVariantNames : List String) :
    Option Experiment :=
  let minSamples := e.minSamplesPerVariant.getD 100
  if variantKeys.all fun v => decide (minSamples ≤ (stats v).impressions) then
    stopScan now e variantKeys probabilities expVariantNames
      (List.range' 1 (variantKeys.length - 1))
  else none

/-- Ramp schedule constant from the source. -/
def RAMP_SCHEDULE : List ℚ := [10, 25, 50, 75, 100]

/-- Ramp threshold constant from the source. -/
def FLAG_RAMP_THRESHOLD : ℚ := 0.95

/-- Required consecutive qualifying evaluations, from the source. -/
def FLAG_CONSECUTIVE_REQUIRED : ℚ := 3

/-- Consecutive-hit counter after the read-then-increment: an absent KV
value becomes 1, a present value (stored as a decimal integer string) is
parsed and incremented. -/
def nextConsecutive (counter0 : Option ℚ) : ℚ :=
  match counter0 with
  | some n => n + 1
  | none => 1

/-- Store effects of one evaluateFlagRamp call: the returned record (none
when no ramp decision), the counter slot contents after the call, and the
experiment record written, if any. -/
structure RampEffect where
  result : Option Experiment
  counter : Option ℚ
  recordPut : Option Experiment
deriving DecidableEq

/-- evaluateFlagRamp from the source. The probability of on beating off is
the entry at index 1; a null entry returns early with no writes. Above the
threshold the counter is incremented and written; from three consecutive
hits the first schedule value above the current trafficPercent, when one
exists, is persisted and the counter is reset. At or below the threshold
the counter is reset to 0 unconditionally. A missing entry (undefined) is
not null and compares false against the threshold, so it takes the reset
branch. -/
def evaluateFlagRamp (now : String) (e : Experiment)
    (probabilities : List (Option ℚ)) (counter0 : Option ℚ) : RampEffect :=
  match probabilities.get? 1 with
  | some none => ⟨none, counter0, none⟩
  | some (some p) =>
    if p > FLAG_RAMP_THRESHOLD then
      let consecutive := nextConsecutive counter0
      if consecutive ≥ FLAG_CONSECUTIVE_REQUIRED then
        match RAMP_SCHEDULE.find? fun step => decide (step > e.trafficPercent) with
        | some nextStep =>
          ⟨some { e with trafficPercent := nextStep, updatedAt := some now },
           some 0,
           some { e with trafficPercent := nextStep, updatedAt := some now }⟩
        | none => ⟨none, some consecutive, none⟩
      else ⟨none, some consecutive, none⟩
    else ⟨none, some 0, none⟩
  | none => ⟨none, some 0, none⟩

/-- Outcome of the auto-evaluation step of handleResults: the record the
response is built from after evaluation, the record written to the
experiment key, if any, and the counter slot contents after the call. -/
structure EvalOutcome where
  finalExp : Experiment
  recordPut : Option Experiment
  counter : Option ℚ
deriving DecidableEq

/-- Auto-evaluation dispatch of handleResults from the source: only active
records are evaluated; experiment-typed records (the default type) with
autoStop not disabled go to evaluateExperimentStop, flag-typed records to
evaluateFlagRamp; any other record — in particular any non-active one — is
left untouched and nothing is written. -/
def evaluateResults (now : String) (e : Experiment) (variantKeys : List String)
    (stats : String → VariantStats) (probabilities : List (Option ℚ))
    (expVariantNames : List String) (counter0 : Option ℚ) : EvalOutcome :=
  if e.status = "active" then
    let expType := e.type.getD "experiment"
    if expType = "experiment" ∧ e.autoStop.getD true = true then
      match evaluateExperimentStop now e variantKeys stats probabilities expVariantNames with
      | some u => ⟨u, some u, counter0⟩
      | none => ⟨e, none, counter0⟩
    else if expType = "flag" then
      let eff := evaluateFlagRamp now e probabilities counter0
      ⟨eff.result.getD e, eff.recordPut, eff.counter⟩
    else ⟨e, none, counter0⟩
  else ⟨e, none, counter0⟩

/-- Concrete active experiment record used by the witnesses. -/
def expA : Experiment :=
  { id := "exp1", variants := ["control", "treatment"], trafficPercent := 100,
    status := "active", type := none, autoStop := none,
    minSamplesPerVariant := none, winner := none, completedAt := none,
    updatedAt := none }

/-- Concrete active flag record used by the witnesses. -/
def expFlagA : Experiment :=
  { expA with type := some "flag", trafficPercent := 10 }

/-- Concrete paused record used by the witnesses. -/
def expPausedA : Experiment :=
  { expA with status := "paused" }

/-- Concrete stats in which every variant has plenty of samples. -/
def statsHigh : String → VariantStats := fun _ => ⟨1000, 900, 0⟩

/-- Concrete stats in which the control variant is under-sampled. -/
def statsLow : String → VariantStats :=
  fun v => if v = "0" then ⟨50, 10, 0⟩ else ⟨1000, 900, 0⟩

/-- C4: auto-stop sample-size gating. When any variant's impressions are
below minSamplesPerVariant (default 100 when unset), evaluateExperimentStop
returns no decision — and hence writes nothing — regardless of the
probabilities. -/
theorem evaluateExperimentStop_gating (now : String) (e : Experiment)
    (variantKeys : List String) (stats : String → VariantStats)
    (probabilities : List (Option ℚ)) (expVariantNames : List String)
    (v : String) (hv : v ∈ variantKeys)
    (hlow : (stats v).impressions < e.minSamplesPerVariant.getD 100) :
    evaluateExperimentStop now e variantKeys stats probabilities expVariantNames = none := by
  unfold evaluateExperimentStop
  rw [if_neg]
  intro hall
  have hd := List.all_eq_true.mp hall v hv
  rw [decide_eq_true_eq] at hd
  linarith

/-- Witness for C4: with the control variant at 50 impressions and the
default minimum of 100, no decision is returned even though the treatment
probability is decisive. -/
theorem evaluateExperimentStop_gating_witness :
    ("0" : String) ∈ ["0", "1"] ∧
    (statsLow "0").impressions < expA.minSamplesPerVariant.getD 100 ∧
    evaluateExperimentStop "T0" expA ["0", "1"] statsLow [none, some (995/1000)]
      ["control", "treatment"] = none := by
  have h1 : ("0" : String) ∈ ["0", "1"] := by simp
  have h2 : (statsLow "0").impressions < expA.minSamplesPerVariant.getD 100 := by
    simp [statsLow, expA]
    norm_num
  exact ⟨h1, h2, evaluateExperimentStop_gating "T0" expA ["0", "1"] statsLow
    [none, some (995/1000)] ["control", "treatment"] "0" h1 h2⟩

/-- C5: idempotent no-op on non-active records. A results evaluation of a
record whose status is not active leaves the record exactly as it was,
writes nothing to the experiment key, and leaves the ramp counter slot
untouched. -/
theorem evaluateResults_nonactive_noop (now : String) (e : Experiment)
    (variantKeys : List String) (stats : String → VariantStats)
    (probabilities : List (Option ℚ)) (expVariantNames : List String)
    (counter0 : Option ℚ) (h : e.status ≠ "active") :
    evaluateResults now e variantKeys stats probabilities expVariantNames counter0 =
      ⟨e, none, counter0⟩ := by
  unfold evaluateResults
  rw [if_neg h]

/-- Witness for C5 on a concrete paused record. -/
theorem evaluateResults_nonactive_noop_witness :
    expPausedA.status ≠ "active" ∧
    evaluateResults "T0" expPausedA ["0", "1"] statsHigh [none, some (995/1000)]
      ["control", "treatment"] (some 2) = ⟨expPausedA, none, some 2⟩ := by
  have h : expPausedA.status ≠ "active" := by
    simp [expPausedA, expA]
  exact ⟨h, evaluateResults_nonactive_noop "T0" expPausedA ["0", "1"] statsHigh
    [none, some (995/1000)] ["control", "treatment"] (some 2) h⟩

/-- C10: a probabilities array with fewer than two entries makes the index-1
lookup yield undefined, not null, so the early-return guard of
evaluateFlagRamp does not fire; the evaluator takes the sub-threshold
branch instead, writing 0 to the counter slot (creating it if absent),
returning no ramp decision, and writing nothing to the experiment record. -/
theorem evaluateFlagRamp_short_probabilities (now : String) (e : Experiment)
    (probabilities : List (Option ℚ)) (counter0 : Option ℚ)
    (h : probabilities.length ≤ 1) :
    probabilities.get? 1 = none ∧
    evaluateFlagRamp now e probabilities counter0 = ⟨none, some 0, none⟩ := by
  have hg : probabilities.get? 1 = none := List.get?_eq_none.mpr h
  refine ⟨hg, ?_⟩
  unfold evaluateFlagRamp
  rw [hg]

/-- Witness for C10: a single-entry probabilities array (only the control
has data) resets a present counter to 0 without touching the record. -/
theorem evaluateFlagRamp_short_probabilities_witness :
    ([(none : Option ℚ)]).length ≤ 1 ∧
    (([(none : Option ℚ)]).get? 1 = none ∧
     evaluateFlagRamp "T0" expFlagA [none] (some 2) = ⟨none, some 0, none⟩) :=
  ⟨by simp, evaluateFlagRamp_short_probabilities "T0" expFlagA [none] (some 2) (by simp)⟩

lemma findSchedule_none (t : ℚ) (h : ∀ s ∈ RAMP_SCHEDULE, s ≤ t) :
    RAMP_SCHEDULE.find? (fun step => decide (step > t)) = none := by
  rw [List.find?_eq_none]
  intro x hx
  simp only [decide_eq_true_eq, not_lt]
  exact h x hx

lemma findSchedule_some (t : ℚ) (h : ∃ s ∈ RAMP_SCHEDULE, t < s) :
    ∃ s, RAMP_SCHEDULE.find? (fun step => decide (step > t)) = some s ∧
      s ∈ RAMP_SCHEDULE ∧ t < s ∧ ∀ s2 ∈ RAMP_SCHEDULE, t < s2 → s ≤ s2 := by
  by_cases h10 : t < 10
  · refine ⟨10, ?_, by simp [RAMP_SCHEDULE], h10, ?_⟩
    · have d10 : decide ((10 : ℚ) > t) = true := decide_eq_true h10
      simp [RAMP_SCHEDULE, List.find?, d10]
    · intro s2 hs2 _
      simp only [RAMP_SCHEDULE, List.mem_cons, List.not_mem_nil, or_false] at hs2
      rcases hs2 with h2 | h2 | h2 | h2 | h2 <;> subst h2 <;> norm_num
  · push_neg at h10
    by_cases h25 : t < 25
    · refine ⟨25, ?_, by simp [RAMP_SCHEDULE], h25, ?_⟩
      · have d10 : decide ((10 : ℚ) > t) = false := decide_eq_false (by linarith)
        have d25 : decide ((25 : ℚ) > t) = true := decide_eq_true h25
        simp [RAMP_SCHEDULE, List.find?, d10, d25]
      · intro s2 hs2 hlt
        simp only [RAMP_SCHEDULE, List.mem_cons, List.not_mem_nil, or_false] at hs2
        rcases hs2 with h2 | h2 | h2 | h2 | h2 <;> subst h2 <;> linarith
    · push_neg at h25
      by_cases h50 : t < 50
      · refine ⟨50, ?_, by simp [RAMP_SCHEDULE], h50, ?_⟩
        · have d10 : decide ((10 : ℚ) > t) = false := decide_eq_false (by linarith)
          have d25 : decide ((25 : ℚ) > t) = false := decide_eq_false (by linarith)
          have d50 : decide ((50 : ℚ) > t) = true := decide_eq_true h50
          simp [RAMP_SCHEDULE, List.find?, d10, d25, d50]
        · intro s2 hs2 hlt
          simp only [RAMP_SCHEDULE, List.mem_cons, List.not_mem_nil, or_false] at hs2
          rcases hs2 with h2 | h2 | h2 | h2 | h2 <;> subst h2 <;> linarith
      · push_neg at h50
        by_cases h75 : t < 75
        · refine ⟨75, ?_, by simp [RAMP_SCHEDULE], h75, ?_⟩
          · have d10 : decide ((10 : ℚ) > t) = false := decide_eq_false (by linarith)
            have d25 : decide ((25 : ℚ) > t) = false := decide_eq_false (by linarith)
            have d50 : decide ((50 : ℚ) > t) = false := decide_eq_false (by linarith)
            have d75 : decide ((75 : ℚ) > t) = true := decide_eq_true h75
            simp [RAMP_SCHEDULE, List.find?, d10, d25, d50, d75]
          · intro s2 hs2 hlt
            simp only [RAMP_SCHEDULE, List.mem_cons, List.not_mem_nil, or_false] at hs2
            rcases hs2 with h2 | h2 | h2 | h2 | h2 <;> subst h2 <;> linarith
        · push_neg at h75
          by_cases h100 : t < 100
          · refine ⟨100, ?_, by simp [RAMP_SCHEDULE], h100, ?_⟩
            · have d10 : decide ((10 : ℚ) > t) = false := decide_eq_false (by linarith)
              have d25 : decide ((25 : ℚ) > t) = false := decide_eq_false (by linarith)
              have d50 : decide ((50 : ℚ) > t) = false := decide_eq_false (by linarith)
              have d75 : decide ((75 : ℚ) > t) = false := decide_eq_false (by linarith)
              have d100 : decide ((100 : ℚ) > t) = true := decide_eq_true h100
              simp [RAMP_SCHEDULE, List.find?, d10, d25, d50, d75, d100]
            · intro s2 hs2 hlt
              simp only [RAMP_SCHEDULE, List.mem_cons, List.not_mem_nil, or_false] at hs2
              rcases hs2 with h2 | h2 | h2 | h2 | h2 <;> subst h2 <;> linarith
          · exfalso
            push_neg at h100
            obtain ⟨s, hs, hts⟩ := h
            simp only [RAMP_SCHEDULE, List.mem_cons, List.not_mem_nil, or_false] at hs
            rcases hs with h2 | h2 | h2 | h2 | h2 <;> subst h2 <;> linarith

/-- C3: the auto-ramp rule. With a numeric probability at index 1: above
the 0.95 threshold the stored counter is read and incremented (an absent
counter becomes 1); when the incremented counter reaches 3, trafficPercent
is set to the smallest schedule value strictly greater than the current
one and the counter is reset to 0; when no schedule value is greater
(already at 100) only the incremented counter is written; when the
incremented counter is still below 3 only the incremented counter is
written. At or below the threshold the counter is reset to 0
unconditionally and the record is not modified. -/
theorem evaluateFlagRamp_rule (now : String) (e : Experiment)
    (probabilities : List (Option ℚ)) (counter0 : Option ℚ) (p : ℚ)
    (hp : probabilities.get? 1 = some (some p)) :
    (nextConsecutive none = 1 ∧ ∀ n : ℚ, nextConsecutive (some n) = n + 1) ∧
    (p > FLAG_RAMP_THRESHOLD →
      ((nextConsecutive counter0 ≥ FLAG_CONSECUTIVE_REQUIRED →
        ((∃ s ∈ RAMP_SCHEDULE, e.trafficPercent < s) →
          ∃ s, s ∈ RAMP_SCHEDULE ∧ e.trafficPercent < s ∧
            (∀ s2 ∈ RAMP_SCHEDULE, e.trafficPercent < s2 → s ≤ s2) ∧
            evaluateFlagRamp now e probabilities counter0 =
              ⟨some { e with trafficPercent := s, updatedAt := some now },
               some 0,
               some { e with trafficPercent := s, updatedAt := some now }⟩) ∧
        ((∀ s ∈ RAMP_SCHEDULE, s ≤ e.trafficPercent) →
          evaluateFlagRamp now e probabilities counter0 =
            ⟨none, some (nextConsecutive counter0), none⟩)) ∧
      (¬ nextConsecutive counter0 ≥ FLAG_CONSECUTIVE_REQUIRED →
        evaluateFlagRamp now e probabilities counter0 =
          ⟨none, some (nextConsecutive counter0), none⟩))) ∧
    (¬ p > FLAG_RAMP_THRESHOLD →
      evaluateFlagRamp now e probabilities counter0 = ⟨none, some 0, none⟩) := by
  refine ⟨⟨rfl, fun n => rfl⟩, ?_, ?_⟩
  · intro hgt
    refine ⟨?_, ?_⟩
    · intro hc
      refine ⟨?_, ?_⟩
      · intro hex
        obtain ⟨s, hfind, hmem, hlt, hmin⟩ := findSchedule_some e.trafficPercent hex
        refine ⟨s, hmem, hlt, hmin, ?_⟩
        simp only [evaluateFlagRamp, hp]
        rw [if_pos hgt, if_pos hc, hfind]
      · intro hall
        have hfind := findSchedule_none e.trafficPercent hall
        simp only [evaluateFlagRamp, hp]
        rw [if_pos hgt, if_pos hc, hfind]
    · intro hc
      simp only [evaluateFlagRamp, hp]
      rw [if_pos hgt, if_neg hc]
  · intro hle
    simp only [evaluateFlagRamp, hp]
    rw [if_neg hle]

/-- Witness for C3: an active flag at 10% traffic, probability 0.96 and a
stored counter of 2 ramps to 25% with the counter reset to 0. -/
theorem evaluateFlagRamp_rule_witness :
    ∃ s, s ∈ RAMP_SCHEDULE ∧ expFlagA.trafficPercent < s ∧
      (∀ s2 ∈ RAMP_SCHEDULE, expFlagA.trafficPercent < s2 → s ≤ s2) ∧
      evaluateFlagRamp "T0" expFlagA [none, some (96/100)] (some 2) =
        ⟨some { expFlagA with trafficPercent := s, updatedAt := some "T0" },
         some 0,
         some { expFlagA with trafficPercent := s, updatedAt := some "T0" }⟩ := by
  have h := evaluateFlagRamp_rule "T0" expFlagA [none, some (96/100)] (some 2) (96/100) rfl
  refine ((h.2.1 ?_).1 ?_).1 ?_
  · show (96/100 : ℚ) > FLAG_RAMP_THRESHOLD
    rw [FLAG_RAMP_THRESHOLD]
    norm_num
  · show nextConsecutive (some 2) ≥ FLAG_CONSECUTIVE_REQUIRED
    rw [FLAG_CONSECUTIVE_REQUIRED]
    norm_num [nextConsecutive]
  · refine ⟨25, by simp [RAMP_SCHEDULE], ?_⟩
    show expFlagA.trafficPercent < 25
    norm_num [expFlagA, expA]

lemma stopScan_eq_none (now : String) (e : Experiment) (variantKeys : List String)
    (probabilities : List (Option ℚ)) (names : List String) :
    ∀ L : List ℕ, (∀ i ∈ L, decideWinner variantKeys probabilities names i = none) →
      stopScan now e variantKeys probabilities names L = none := by
  intro L
  induction L with
  | nil => intro _; rfl
  | cons j rest ih =>
    intro h
    have hj := h j (List.mem_cons_self j rest)
    simp only [stopScan, hj]
    exact ih fun i hi => h i (List.mem_cons_of_mem j hi)

lemma stopScan_eq_some (now : String) (e : Experiment) (variantKeys : List String)
    (probabilities : List (Option ℚ)) (names : List String) (w : String) :
    ∀ (L1 : List ℕ) (j : ℕ) (L2 : List ℕ),
      (∀ i ∈ L1, decideWinner variantKeys probabilities names i = none) →
      decideWinner variantKeys probabilities names j = some w →
      stopScan now e variantKeys probabilities names (L1 ++ j :: L2) =
        some (completeWith now e w) := by
  intro L1
  induction L1 with
  | nil =>
    intro j L2 _ hj
    simp only [List.nil_append, stopScan, hj]
  | cons a rest ih =>
    intro j L2 h hj
    have ha := h a (List.mem_cons_self a rest)
    simp only [List.cons_append, stopScan, ha]
    exact ih j L2 (fun i hi => h i (List.mem_cons_of_mem a hi)) hj

lemma decideWinner_eq_none_of_not_decisive (variantKeys : List String)
    (probabilities : List (Option ℚ)) (names : List String) (i : ℕ)
    (hi : ¬ ∃ p : ℚ, probabilities.get? i = some (some p) ∧ (p > 0.99 ∨ p < 0.01)) :
    decideWinner variantKeys probabilities names i = none := by
  rcases hq : probabilities.get? i with _ | q
  · simp only [decideWinner, hq]
  · rcases q with _ | p
    · simp only [decideWinner, hq]
    · simp only [decideWinner, hq]
      rw [if_neg fun hgt => hi ⟨p, hq, Or.inl hgt⟩,
          if_neg fun hlt => hi ⟨p, hq, Or.inr hlt⟩]

/-- C2: the auto-stop decision rule. Once every variant passes the sample
gate, the treatment indices are scanned in ascending order; if none of
them carries a numeric probability crossing a threshold, no decision is
made and nothing is written; at the first index that does, the scan stops
and the persisted record is the input with status completed, winner the
treatment's name above 0.99 or the control's name below 0.01, and
completedAt and updatedAt set to the current time. -/
theorem evaluateExperimentStop_first_decision (now : String) (e : Experiment)
    (variantKeys : List String) (stats : String → VariantStats)
    (probabilities : List (Option ℚ)) (names : List String)
    (hsamp : ∀ v ∈ variantKeys, e.minSamplesPerVariant.getD 100 ≤ (stats v).impressions) :
    ((∀ i, 1 ≤ i → i < variantKeys.length →
        ¬ ∃ p : ℚ, probabilities.get? i = some (some p) ∧ (p > 0.99 ∨ p < 0.01)) →
      evaluateExperimentStop now e variantKeys stats probabilities names = none) ∧
    (∀ j p, 1 ≤ j → j < variantKeys.length →
      probabilities.get? j = some (some p) → (p > 0.99 ∨ p < 0.01) →
      (∀ i, 1 ≤ i → i < j →
        ¬ ∃ q : ℚ, probabilities.get? i = some (some q) ∧ (q > 0.99 ∨ q < 0.01)) →
      evaluateExperimentStop now e variantKeys stats probabilities names =
        some { e with
                status := "completed",
                winner := some (if p > 0.99
                  then variantName names ((variantKeys.get? j).getD "")
                  else variantName names ((variantKeys.get? 0).getD "")),
                completedAt := some now,
                updatedAt := some now }) := by
  have hall : (variantKeys.all fun v =>
      decide (e.minSamplesPerVariant.getD 100 ≤ (stats v).impressions)) = true := by
    rw [List.all_eq_true]
    intro v hv
    exact decide_eq_true (hsamp v hv)
  have hguard : evaluateExperimentStop now e variantKeys stats probabilities names =
      stopScan now e variantKeys probabilities names
        (List.range' 1 (variantKeys.length - 1)) := by
    unfold evaluateExperimentStop
    rw [if_pos hall]
  constructor
  · intro hnone
    rw [hguard]
    apply stopScan_eq_none
    intro i hi
    rw [List.mem_range'] at hi
    obtain ⟨k, hk, rfl⟩ := hi
    exact decideWinner_eq_none_of_not_decisive variantKeys probabilities names _
      (hnone (1 + 1 * k) (by omega) (by omega))
  · intro j p h1 h2 hq hdec hmin
    rw [hguard]
    have hsplit : List.range' 1 (variantKeys.length - 1) =
        List.range' 1 (j - 1) ++ j :: List.range' (j + 1) (variantKeys.length - 1 - j) := by
      have h3 : List.range' j (variantKeys.length - j) =
          j :: List.range' (j + 1) (variantKeys.length - 1 - j) := by
        have h4 : variantKeys.length - j = (variantKeys.length - 1 - j) + 1 := by omega
        rw [h4, List.range'_succ]
      have h5 := List.range'_append_1 1 (j - 1) (variantKeys.length - j)
      rw [show 1 + (j - 1) = j from by omega,
          show (variantKeys.length - j) + (j - 1) = variantKeys.length - 1 from by omega] at h5
      rw [← h5, h3]
    have hw : decideWinner variantKeys probabilities names j =
        some (if p > 0.99 then variantName names ((variantKeys.get? j).getD "")
              else variantName names ((variantKeys.get? 0).getD "")) := by
      simp only [decideWinner, hq]
      by_cases hp99 : p > 0.99
      · rw [if_pos hp99, if_pos hp99]
      · have hp01 : p < 0.01 := by
          rcases hdec with h | h
          · exact absurd h hp99
          · exact h
        rw [if_neg hp99, if_pos hp01, if_neg hp99]
    have hpre : ∀ i ∈ List.range' 1 (j - 1),
        decideWinner variantKeys probabilities names i = none := by
      intro i hi
      rw [List.mem_range'] at hi
      obtain ⟨k, hk, rfl⟩ := hi
      exact decideWinner_eq_none_of_not_decisive variantKeys probabilities names _
        (hmin (1 + 1 * k) (by omega) (by omega))
    rw [hsplit, stopScan_eq_some now e variantKeys probabilities names _
      (List.range' 1 (j - 1)) j (List.range' (j + 1) (variantKeys.length - 1 - j)) hpre hw]
    rfl

/-- Witness for C2: with ample samples, a treatment probability of 0.995 at
index 1 completes the experiment with the treatment's name as winner. -/
theorem evaluateExperimentStop_first_decision_witness :
    (∀ v ∈ (["0", "1"] : List String),
      expA.minSamplesPerVariant.getD 100 ≤ (statsHigh v).impressions) ∧
    evaluateExperimentStop "T0" expA ["0", "1"] statsHigh [none, some (995/1000)]
      ["control", "treatment"] =
      some { expA with
              status := "completed",
              winner := some "treatment",
              completedAt := some "T0",
              updatedAt := some "T0" } := by
  have hsamp : ∀ v ∈ (["0", "1"] : List String),
      expA.minSamplesPerVariant.getD 100 ≤ (statsHigh v).impressions := by
    intro v _
    show expA.minSamplesPerVariant.getD 100 ≤ (1000 : ℚ)
    norm_num [expA]
  have h := (evaluateExperimentStop_first_decision "T0" expA ["0", "1"] statsHigh
    [none, some (995/1000)] ["control", "treatment"] hsamp).2 1 (995/1000)
    (le_refl 1) (by norm_num) rfl (Or.inl (by norm_num))
    (fun i hi1 hi2 => absurd hi2 (by omega))
  refine ⟨hsamp, ?_⟩
  rw [h, if_pos (show (995/1000 : ℚ) > 0.99 from by norm_num)]
  rfl

end Fog
